import Mathlib

set_option autoImplicit false

/-!
Shallow embedding of `src/hosted-fields/internal/index.js` (braintree-web
hosted fields internal frame logic): the tokenization pipeline
(`createTokenizationHandler`), the error classifier
(`formatTokenizationError`), the autofill reconciliation handler
(`autofillHandler`), the card-brand merge (`getSupportedCardBrands`) and the
card-data merge (`mergeCardData`).

JavaScript objects whose values are strings are embedded as association
lists with first-match lookup (`getProp`); property assignment is modelled
by prepending, so a later assignment shadows an earlier one under
`getProp`. External collaborators that live outside the embedded file
(`CreditCardForm`, `BraintreeError.findRootError`, the
`tokenizationErrorCodes` table, `normalizeCardType`,
`formatCardRequestData`) are modelled from the specification's interface
descriptions or taken as parameters; each such definition says so in its
doc comment.
-/

namespace HostedFields

/-- A JavaScript object with string values, as an association list; lookup is
first match, so prepending a pair models property assignment. -/
abbrev Obj := List (String × String)

/-- Property lookup on an association-list object: the first pair whose key
matches, if any (`undefined` is `none`). -/
def getProp {α : Type} (o : List (String × α)) (k : String) : Option α :=
  match o with
  | [] => none
  | p :: t => if p.1 = k then some p.2 else getProp t k

/-- JavaScript `hasOwnProperty` on the association-list object model. -/
def hasOwnProperty (o : Obj) (k : String) : Bool :=
  (getProp o k).isSome

/-- Truthiness of a possibly-absent JavaScript string: `undefined` and the
empty string are falsy, every other string is truthy. -/
def truthyStr : Option String → Bool
  | none => false
  | some s => !(s == "")

/-- Per-field slice of the card data model (spec §3 `CardDataModel`): value,
validity, emptiness and focus for one field role. -/
structure FieldState where
  value : String
  isValid : Bool
  isEmpty : Bool
  isFocused : Bool
deriving Repr, DecidableEq

/-- Modelled from the spec: the `CreditCardForm` collaborator
(`./models/credit-card-form`, outside the embedded file). Spec §6 requires
it to expose `isEmpty(fields)`, `invalidFieldKeys(fields)` and
`getCardData(fields)`; spec §3 makes it a mapping from field role to
`{value, isValid, isEmpty, isFocused}`. `fieldState` is that mapping and
`cardData` is the opaque `getCardData` output. -/
structure CardForm where
  fieldState : String → FieldState
  cardData : List String → Obj

/-- Modelled from the spec: `CreditCardForm.isEmpty(fields)` holds exactly
when every requested field is empty (spec §4.5 step 2 reads "If every
requested field is empty"). -/
def CardForm.isEmpty (form : CardForm) (fields : List String) : Bool :=
  fields.all (fun f => (form.fieldState f).isEmpty)

/-- Modelled from the spec: `CreditCardForm.invalidFieldKeys(fields)` is the
list of requested fields currently failing validation (spec §8: "whose
invalid-field list equals the set of requested fields currently failing
validation"). -/
def CardForm.invalidFieldKeys (form : CardForm) (fields : List String) : List String :=
  fields.filter (fun f => !(form.fieldState f).isValid)

/-- Error values flowing through the classifier. `clientApi` is a raw
failure from the remote client, carrying `details.httpStatus` when present
and the nested field-error code when the two-level
`fieldErrors[0].fieldErrors[0].code` access would succeed (`none` when the
access would throw or the code is absent). `jsTypeError` is a runtime
`TypeError` raised while shaping a malformed success payload. The remaining
constructors are the `BraintreeError` values the pipeline builds; the
wrapped `originalError` is the `details.originalError` property. -/
inductive TokErr where
  | clientApi (httpStatus : Option Int) (nestedCode : Option String)
  | jsTypeError
  | fieldsEmpty
  | fieldsInvalid (invalidFieldKeys : List String)
  | failedTokenization (originalError : TokErr)
  | networkError (originalError : TokErr)
  | mappedTokenizationError (taxonomyCode : String) (rootError : TokErr)
deriving Repr, DecidableEq

/-- The `err.details && err.details.httpStatus` read: only a raw client-api
failure carries an HTTP status; every constructed `BraintreeError` and a
runtime `TypeError` yield `undefined`. -/
def TokErr.httpStatus : TokErr → Option Int
  | .clientApi s _ => s
  | _ => none

/-- Modelled from the spec: `BraintreeError.findRootError` (outside the
embedded file) extracts "a nested root-cause error" (spec §4.6) by
following the wrapped original error of constructed errors; a raw failure
is its own root. -/
def findRootError : TokErr → TokErr
  | .failedTokenization e => findRootError e
  | .networkError e => findRootError e
  | .mappedTokenizationError _ e => findRootError e
  | e => e

/-- Modelled from the spec: the guarded
`rootError.fieldErrors[0].fieldErrors[0].code` access, "a specific
field-error code buried two levels deep in its field-error structure"
(spec §4.6). On a raw client-api failure it yields the carried code when
present; on every other shape the access throws, and the classifier's
`catch` turns that into no code at all. -/
def nestedFieldErrorCode : TokErr → Option String
  | .clientApi _ c => c
  | _ => none

/-- The error classifier `formatTokenizationError` (src lines 334-360).
`tokenizationErrorCodes` (a fixed table living in shared constants, outside
the embedded file) is a parameter mapping a known code to its taxonomy
entry. Status 403 passes the failure through; a status below 500 attempts
nested-code extraction and maps a known code through the table, otherwise a
generic failed-tokenization error carries the original failure; a status of
500 or above, or a missing status, yields a network error carrying the
original failure. -/
def formatTokenizationError (tokenizationErrorCodes : String → Option String)
    (err : TokErr) : TokErr :=
  match TokErr.httpStatus err with
  | some status =>
    if status = 403 then
      err
    else if status < 500 then
      let rootError := findRootError err
      match nestedFieldErrorCode rootError with
      | some code =>
        match tokenizationErrorCodes code with
        | some entry => TokErr.mappedTokenizationError entry rootError
        | none => TokErr.failedTokenization err
      | none => TokErr.failedTokenization err
    else
      TokErr.networkError err
  | none => TokErr.networkError err

/-- The fixed billing-address allow-list (src lines 26-39). -/
def ALLOWED_BILLING_ADDRESS_FIELDS : List String :=
  ["company", "countryCodeNumeric", "countryCodeAlpha2", "countryCodeAlpha3",
   "countryName", "extendedAddress", "locality", "region", "firstName",
   "lastName", "postalCode", "streetAddress"]

/-- The card-data merge `mergeCardData` (src lines 427-445): copy the
caller's billing address, delete every field that is off the allow-list or
already present in the card data, add the cardholder name when truthy, and
`assign` the survivors over the card data (prepending models the
assignment's precedence under `getProp`). -/
def mergeCardData (cardData : Obj) (billingAddress : Obj)
    (cardholderName : Option String) : Obj :=
  let userProvidedCardData := billingAddress.filter
    (fun p => ALLOWED_BILLING_ADDRESS_FIELDS.contains p.1 && !hasOwnProperty cardData p.1)
  let userProvidedCardData :=
    if truthyStr cardholderName then
      ("cardholderName", cardholderName.getD "") :: userProvidedCardData
    else
      userProvidedCardData
  userProvidedCardData ++ cardData

/-- The autofill payload published on the bus (spec §3):
`{month: string, year: string, cvv: string|absent}`. -/
structure AutofillPayload where
  month : String
  year : String
  cvv : Option String
deriving Repr, DecidableEq

/-- Observable actions `autofillHandler` performs on its field component:
`updateModel` is `input.updateModel('value', v)`, `maskValue` is
`input.maskValue(v)`, `setElementValue` is the raw
`input.element.value = v` write, and `resetPlaceholder` is the placeholder
remove-and-restore call. An empty action list means the component is left
entirely unchanged. -/
inductive AutofillEffect where
  | updateModel (value : String)
  | maskValue (value : String)
  | setElementValue (value : String)
  | resetPlaceholder
deriving Repr, DecidableEq

/-- The year widening inside `autofillHandler` (src lines 189-192): a
two-character year gets the first two characters of the current full year
(`thisYear`, the stringified `new Date().getFullYear()`) prepended. -/
def reconcileYear (thisYear : String) (year : String) : String :=
  if year.length = 2 then thisYear.take 2 ++ year else year

/-- The role dispatch inside `autofillHandler` (src lines 194-202): the
value the handler would apply for the surface role `name`, `none` when the
role takes nothing from the payload (`value` stays `undefined`). -/
def autofillValue (thisYear : String) (name : String) (p : AutofillPayload) :
    Option String :=
  let month := p.month
  let year := reconcileYear thisYear p.year
  if name = "expirationDate" then some (month ++ " / " ++ year)
  else if name = "expirationMonth" then some month
  else if name = "expirationYear" then some year
  else if name = "cvv" ∧ truthyStr p.cvv = true then p.cvv
  else none

/-- The autofill handler (src lines 176-216), parameterized by the current
year string, the surface role and the component's `shouldMask` flag. A
missing payload or a falsy month or year returns early; otherwise the role
dispatch picks a value, and a truthy value is pushed into the model, then
either masked or written raw, then the placeholder is reset. -/
def autofillHandler (thisYear : String) (name : String) (shouldMask : Bool)
    (payload : Option AutofillPayload) : List AutofillEffect :=
  match payload with
  | none => []
  | some p =>
    if p.month = "" ∨ p.year = "" then []
    else
      match autofillValue thisYear name p with
      | none => []
      | some value =>
        if value = "" then []
        else
          AutofillEffect.updateModel value ::
            (if shouldMask then [AutofillEffect.maskValue value]
             else [AutofillEffect.setElementValue value]) ++
            [AutofillEffect.resetPlaceholder]

/-- The brand merge `getSupportedCardBrands` (src lines 405-425).
`normalizeCardType` lives outside the embedded file and is a parameter.
`gwSupportedCards` is the gateway's `supportedCardTypes` (absent when the
gateway has no credit-card configuration), `merchantConfiguredCardBrands`
the merchant's per-brand map (absent when unconfigured). Every normalized
gateway brand is assigned `true`, then every merchant entry overrides the
normalized brand with the merchant's flag; prepending models assignment
under `getProp`. -/
def getSupportedCardBrands (normalizeCardType : String → String)
    (gwSupportedCards : Option (List String))
    (merchantConfiguredCardBrands : Option (List (String × Bool))) :
    List (String × Bool) :=
  let gw := (gwSupportedCards.map (fun l => l.map normalizeCardType)).getD []
  let merchant := merchantConfiguredCardBrands.getD []
  let supported := gw.foldl (fun brands cardBrand => (cardBrand, true) :: brands) []
  merchant.foldl (fun brands p => (normalizeCardType p.1, p.2) :: brands) supported

/-- One instrument record of the remote service's success response
(spec §6): the fields the pipeline reads off `creditCards[0]`. Opaque
sub-objects are embedded as strings. -/
structure CreditCardRecord where
  nonce : String
  details : String
  description : String
  type : String
  binData : String
  authenticationInsight : Option String
deriving Repr, DecidableEq

/-- The shaped success result `{nonce, details, description, type, binData,
authenticationInsight?}` the pipeline replies with (src lines 308-318). -/
structure TokenizeResult where
  nonce : String
  details : String
  description : String
  type : String
  binData : String
  authenticationInsight : Option String
deriving Repr, DecidableEq

/-- Result shaping on the success path (src lines 307-318): copy the five
fields, and the authentication insight when present. -/
def shapeResult (c : CreditCardRecord) : TokenizeResult :=
  { nonce := c.nonce
    details := c.details
    description := c.description
    type := c.type
    binData := c.binData
    authenticationInsight := c.authenticationInsight }

/-- The tokenization request options carried by the bus event (spec §3
`TokenizationRequest`). `authInsightMerchantAccountId` is
`options.authenticationInsight && options.authenticationInsight.merchantAccountId`. -/
structure TokenizeOptions where
  fieldsToTokenize : List String
  billingAddress : Obj
  cardholderName : Option String
  vault : Bool
  authInsightMerchantAccountId : Option String

/-- The remote request payload built by the pipeline (src lines 283-299):
`_meta.source`, the formatted credit-card details with
`options.validate = (vault === true)`, and the optional
authentication-insight tag. -/
structure RequestData where
  metaSource : String
  creditCard : Obj
  creditCardValidate : Bool
  authenticationInsight : Bool
  merchantAccountId : Option String

/-- Payload assembly (src lines 281-299). `formatCardRequestData` lives
outside the embedded file and is a parameter. -/
def buildRequestData (formatCardRequestData : Obj → Obj) (form : CardForm)
    (opts : TokenizeOptions) : RequestData :=
  let mergedCardData :=
    mergeCardData (form.cardData opts.fieldsToTokenize) opts.billingAddress opts.cardholderName
  { metaSource := "hosted-fields"
    creditCard := formatCardRequestData mergedCardData
    creditCardValidate := opts.vault
    authenticationInsight := truthyStr opts.authInsightMerchantAccountId
    merchantAccountId :=
      if truthyStr opts.authInsightMerchantAccountId then
        opts.authInsightMerchantAccountId
      else
        none }

/-- Outcome of the remote `client.request` call: the gateway's success
response (its `creditCards` array) or its rejection. -/
inductive ClientResult where
  | success (creditCards : List CreditCardRecord)
  | failure (err : TokErr)

/-- One invocation of the reply callback: `reply([err])` or
`reply([null, result])`. -/
inductive Reply where
  | failure (err : TokErr)
  | success (result : TokenizeResult)

/-- The tokenization pipeline `createTokenizationHandler` (src lines
251-332), run after the deferred client has resolved; the remote call's
outcome is the `outcome` parameter. Returns the list of reply-callback
invocations and the list of network requests issued. An empty `creditCards`
array makes the success handler throw a `TypeError` reading `.nonce` of
`undefined`; the chained `catch` classifies that exception and replies with
the classified error. -/
def createTokenizationHandler (tokenizationErrorCodes : String → Option String)
    (formatCardRequestData : Obj → Obj) (form : CardForm)
    (opts : TokenizeOptions) (outcome : ClientResult) :
    List Reply × List RequestData :=
  let fieldsToTokenize := opts.fieldsToTokenize
  let isEmpty := CardForm.isEmpty form fieldsToTokenize
  let invalidFieldKeys := CardForm.invalidFieldKeys form fieldsToTokenize
  let isValid := invalidFieldKeys.length = 0
  if isEmpty then
    ([Reply.failure TokErr.fieldsEmpty], [])
  else if ¬isValid then
    ([Reply.failure (TokErr.fieldsInvalid invalidFieldKeys)], [])
  else
    let data := buildRequestData formatCardRequestData form opts
    match outcome with
    | ClientResult.failure clientApiError =>
      ([Reply.failure (formatTokenizationError tokenizationErrorCodes clientApiError)], [data])
    | ClientResult.success creditCards =>
      match creditCards.head? with
      | some clientApiCreditCard =>
        ([Reply.success (shapeResult clientApiCreditCard)], [data])
      | none =>
        ([Reply.failure (formatTokenizationError tokenizationErrorCodes TokErr.jsTypeError)], [data])

end HostedFields

namespace HostedFields

/-- C4: a raw failure with HTTP status 403 passes through the classifier
unchanged, and the classifier is idempotent on that output: reclassifying
the returned value yields the same object unchanged. -/
theorem formatTokenizationError_status_403_passthrough
    (table : String → Option String) (err : TokErr)
    (h : TokErr.httpStatus err = some 403) :
    formatTokenizationError table err = err ∧
      formatTokenizationError table (formatTokenizationError table err) = err := by
  have h1 : formatTokenizationError table err = err := by
    unfold formatTokenizationError
    rw [h]
    simp
  refine ⟨h1, ?_⟩
  rw [h1, h1]

theorem formatTokenizationError_status_403_passthrough_witness :
    TokErr.httpStatus (TokErr.clientApi (some 403) none) = some 403 ∧
      (formatTokenizationError (fun _ => none) (TokErr.clientApi (some 403) none) =
          TokErr.clientApi (some 403) none ∧
        formatTokenizationError (fun _ => none)
            (formatTokenizationError (fun _ => none) (TokErr.clientApi (some 403) none)) =
          TokErr.clientApi (some 403) none) :=
  ⟨rfl, formatTokenizationError_status_403_passthrough (fun _ => none)
    (TokErr.clientApi (some 403) none) rfl⟩

/-- C5: a raw failure with HTTP status at least 500, or with a missing
status, classifies as a network error carrying the original error as a
detail. -/
theorem formatTokenizationError_network_error
    (table : String → Option String) (err : TokErr)
    (h : TokErr.httpStatus err = none ∨
      ∃ s, TokErr.httpStatus err = some s ∧ 500 ≤ s) :
    formatTokenizationError table err = TokErr.networkError err := by
  unfold formatTokenizationError
  rcases h with h | ⟨s, hs, h500⟩
  · rw [h]
  · rw [hs]
    have h403 : ¬s = 403 := by omega
    have hlt : ¬s < 500 := by omega
    simp [h403, hlt]

theorem formatTokenizationError_network_error_witness :
    (TokErr.httpStatus (TokErr.clientApi (some 500) none) = none ∨
       ∃ s, TokErr.httpStatus (TokErr.clientApi (some 500) none) = some s ∧ 500 ≤ s) ∧
      formatTokenizationError (fun _ => none) (TokErr.clientApi (some 500) none) =
        TokErr.networkError (TokErr.clientApi (some 500) none) :=
  ⟨Or.inr ⟨500, rfl, by norm_num⟩,
   formatTokenizationError_network_error (fun _ => none) (TokErr.clientApi (some 500) none)
     (Or.inr ⟨500, rfl, by norm_num⟩)⟩

/-- C6: a raw failure with HTTP status below 500 and not 403 whose
nested-code extraction yields nothing (the code is absent or the guarded
access throws, which the catch swallows), or whose extracted code is not in
the table, classifies as a generic failed tokenization carrying the
original error as a detail; the classifier is total, so no exception
escapes it. -/
theorem formatTokenizationError_failed_tokenization
    (table : String → Option String) (err : TokErr) (s : Int)
    (hs : TokErr.httpStatus err = some s) (h403 : s ≠ 403) (hlt : s < 500)
    (hcode : nestedFieldErrorCode (findRootError err) = none ∨
      ∃ c, nestedFieldErrorCode (findRootError err) = some c ∧ table c = none) :
    formatTokenizationError table err = TokErr.failedTokenization err := by
  unfold formatTokenizationError
  rw [hs]
  rcases hcode with hc | ⟨c, hc, htab⟩
  · simp [h403, hlt, hc]
  · simp [h403, hlt, hc, htab]

theorem formatTokenizationError_failed_tokenization_witness :
    TokErr.httpStatus (TokErr.clientApi (some 404) (some "81724")) = some 404 ∧
      (404 : Int) ≠ 403 ∧ (404 : Int) < 500 ∧
      (nestedFieldErrorCode (findRootError (TokErr.clientApi (some 404) (some "81724"))) = none ∨
        ∃ c, nestedFieldErrorCode (findRootError (TokErr.clientApi (some 404) (some "81724"))) =
            some c ∧ (fun (_ : String) => (none : Option String)) c = none) ∧
      formatTokenizationError (fun _ => none) (TokErr.clientApi (some 404) (some "81724")) =
        TokErr.failedTokenization (TokErr.clientApi (some 404) (some "81724")) :=
  ⟨rfl, by norm_num, by norm_num, Or.inr ⟨"81724", rfl, rfl⟩,
   formatTokenizationError_failed_tokenization (fun _ => none)
     (TokErr.clientApi (some 404) (some "81724")) 404 rfl (by norm_num) (by norm_num)
     (Or.inr ⟨"81724", rfl, rfl⟩)⟩

/-- C1: when every requested field is empty, the tokenization handler
replies with exactly one fields-empty error and issues no network
request. -/
theorem createTokenizationHandler_fields_empty
    (table : String → Option String) (formatCard : Obj → Obj) (form : CardForm)
    (opts : TokenizeOptions) (outcome : ClientResult)
    (h : ∀ f ∈ opts.fieldsToTokenize, (form.fieldState f).isEmpty = true) :
    createTokenizationHandler table formatCard form opts outcome =
      ([Reply.failure TokErr.fieldsEmpty], []) := by
  have hemp : CardForm.isEmpty form opts.fieldsToTokenize = true := by
    unfold CardForm.isEmpty
    rw [List.all_eq_true]
    exact h
  unfold createTokenizationHandler
  simp [hemp]

theorem createTokenizationHandler_fields_empty_witness :
    (∀ f ∈ ["number", "cvv"],
        ((⟨fun _ => ⟨"", true, true, false⟩, fun _ => []⟩ : CardForm).fieldState f).isEmpty
          = true) ∧
      createTokenizationHandler (fun _ => none) (fun o => o)
          ⟨fun _ => ⟨"", true, true, false⟩, fun _ => []⟩
          ⟨["number", "cvv"], [], none, false, none⟩ (ClientResult.success []) =
        ([Reply.failure TokErr.fieldsEmpty], []) :=
  ⟨fun _ _ => rfl,
   createTokenizationHandler_fields_empty (fun _ => none) (fun o => o)
     ⟨fun _ => ⟨"", true, true, false⟩, fun _ => []⟩
     ⟨["number", "cvv"], [], none, false, none⟩ (ClientResult.success [])
     (fun _ _ => rfl)⟩

/-- C2: when some requested field is non-empty and some requested field is
invalid, the tokenization handler replies with exactly one fields-invalid
error whose detail list is exactly the requested fields failing validation,
and issues no network request. -/
theorem createTokenizationHandler_fields_invalid
    (table : String → Option String) (formatCard : Obj → Obj) (form : CardForm)
    (opts : TokenizeOptions) (outcome : ClientResult)
    (h : ∃ f ∈ opts.fieldsToTokenize,
      (form.fieldState f).isEmpty = false ∧ (form.fieldState f).isValid = false) :
    createTokenizationHandler table formatCard form opts outcome =
      ([Reply.failure (TokErr.fieldsInvalid
          (opts.fieldsToTokenize.filter (fun f => !(form.fieldState f).isValid)))], []) := by
  obtain ⟨f, hf, hemp, hval⟩ := h
  have h1 : CardForm.isEmpty form opts.fieldsToTokenize = false := by
    unfold CardForm.isEmpty
    rw [List.all_eq_false]
    exact ⟨f, hf, by simp [hemp]⟩
  have h2 : f ∈ CardForm.invalidFieldKeys form opts.fieldsToTokenize := by
    unfold CardForm.invalidFieldKeys
    rw [List.mem_filter]
    exact ⟨hf, by simp [hval]⟩
  have h3 : ¬(CardForm.invalidFieldKeys form opts.fieldsToTokenize).length = 0 := by
    intro hl
    rw [List.length_eq_zero] at hl
    rw [hl] at h2
    exact absurd h2 (List.not_mem_nil f)
  unfold createTokenizationHandler
  simp only [h1, Bool.false_eq_true, if_false, h3, if_true, not_false_eq_true, if_neg, ite_false]
  simp [CardForm.invalidFieldKeys, h3]

theorem createTokenizationHandler_fields_invalid_witness :
    (∃ f ∈ ["number"],
        ((⟨fun _ => ⟨"4", false, false, false⟩, fun _ => []⟩ : CardForm).fieldState f).isEmpty
            = false ∧
          ((⟨fun _ => ⟨"4", false, false, false⟩, fun _ => []⟩ : CardForm).fieldState f).isValid
            = false) ∧
      createTokenizationHandler (fun _ => none) (fun o => o)
          ⟨fun _ => ⟨"4", false, false, false⟩, fun _ => []⟩
          ⟨["number"], [], none, false, none⟩ (ClientResult.success []) =
        ([Reply.failure (TokErr.fieldsInvalid ["number"])], []) := by
  refine ⟨⟨"number", by simp, rfl, rfl⟩, ?_⟩
  have h := createTokenizationHandler_fields_invalid (fun _ => none) (fun o => o)
    ⟨fun _ => ⟨"4", false, false, false⟩, fun _ => []⟩
    ⟨["number"], [], none, false, none⟩ (ClientResult.success [])
    ⟨"number", by simp, rfl, rfl⟩
  simpa using h

/-- C3: whatever the remote call's outcome (service success, service
failure, or the exception raised while shaping a malformed success
payload), the tokenization handler invokes the reply callback exactly
once. -/
theorem createTokenizationHandler_replies_once
    (table : String → Option String) (formatCard : Obj → Obj) (form : CardForm)
    (opts : TokenizeOptions) (outcome : ClientResult) :
    ∃ r, (createTokenizationHandler table formatCard form opts outcome).1 = [r] := by
  unfold createTokenizationHandler
  dsimp only
  split
  · exact ⟨_, rfl⟩
  split
  · exact ⟨_, rfl⟩
  cases outcome with
  | failure e => exact ⟨_, rfl⟩
  | success cards =>
    dsimp only
    cases cards.head? with
    | some c => exact ⟨_, rfl⟩
    | none => exact ⟨_, rfl⟩

end HostedFields

namespace HostedFields

/-- Lookup on a cons cell unfolds one step. -/
theorem getProp_cons {α : Type} (p : String × α) (t : List (String × α)) (b : String) :
    getProp (p :: t) b = if p.1 = b then some p.2 else getProp t b := rfl

/-- Lookup distributes over append, preferring the left list. -/
theorem getProp_append {α : Type} (l₁ l₂ : List (String × α)) (b : String) :
    getProp (l₁ ++ l₂) b = (getProp l₁ b).or (getProp l₂ b) := by
  induction l₁ with
  | nil => simp [getProp]
  | cons p t ih =>
    rw [List.cons_append, getProp_cons, getProp_cons]
    by_cases h : p.1 = b
    · simp [h]
    · simp [h, ih]

/-- Lookup misses when no key of the list matches. -/
theorem getProp_eq_none_of_keys {α : Type} (l : List (String × α)) (b : String)
    (h : ∀ p ∈ l, p.1 ≠ b) : getProp l b = none := by
  induction l with
  | nil => rfl
  | cons p t ih =>
    rw [getProp_cons, if_neg (h p (List.mem_cons_self p t))]
    exact ih (fun q hq => h q (List.mem_cons_of_mem p hq))

/-- Lookup finds the value when every matching entry of the list is the
given pair. -/
theorem getProp_unique {α : Type} (l : List (String × α)) (b : String) (v : α)
    (hmem : (b, v) ∈ l) (huniq : ∀ p ∈ l, p.1 = b → p = (b, v)) :
    getProp l b = some v := by
  induction l with
  | nil => cases hmem
  | cons p t ih =>
    rw [getProp_cons]
    by_cases h : p.1 = b
    · rw [if_pos h, huniq p (List.mem_cons_self p t) h]
    · rw [if_neg h]
      refine ih ?_ (fun q hq hqb => huniq q (List.mem_cons_of_mem p hq) hqb)
      rcases List.mem_cons.mp hmem with h1 | h1
      · exact absurd (show p.1 = b by rw [← h1]) h
      · exact h1

/-- A left fold that prepends is the reversed map, appended to the seed. -/
theorem foldl_prepend_eq_reverse_map {α β : Type} (f : α → β) (l : List α)
    (init : List β) :
    l.foldl (fun acc x => f x :: acc) init = (l.map f).reverse ++ init := by
  induction l generalizing init with
  | nil => simp
  | cons a t ih => simp [ih]

/-- Lookup commutes with filtering by a predicate on the key. -/
theorem getProp_filter_key {α : Type} (l : List (String × α)) (q : String → Bool)
    (b : String) :
    getProp (l.filter (fun p => q p.1)) b = if q b then getProp l b else none := by
  induction l with
  | nil => simp [getProp]
  | cons p t ih =>
    rw [List.filter_cons]
    by_cases hpb : p.1 = b
    · subst hpb
      by_cases hq : q p.1 = true
      · simp [hq, getProp_cons]
      · simp [hq, ih]
    · by_cases hq : q p.1 = true
      · simp [hq, getProp_cons, hpb, ih]
      · simp [hq, getProp_cons, hpb, ih]

end HostedFields

namespace HostedFields

/-- Characterization of `mergeCardData` under lookup: the cardholder name
wins at its own key when truthy; at every other key the allow-listed,
not-already-present billing field is consulted first, then the card
data. -/
theorem getProp_mergeCardData (cardData billingAddress : Obj)
    (cardholderName : Option String) (k : String) :
    getProp (mergeCardData cardData billingAddress cardholderName) k =
      if truthyStr cardholderName = true ∧ k = "cardholderName" then
        some (cardholderName.getD "")
      else
        (if ALLOWED_BILLING_ADDRESS_FIELDS.contains k && !hasOwnProperty cardData k then
            getProp billingAddress k
          else none).or (getProp cardData k) := by
  have hfil :
      getProp (billingAddress.filter
        (fun p => ALLOWED_BILLING_ADDRESS_FIELDS.contains p.1 && !hasOwnProperty cardData p.1)) k =
      if ALLOWED_BILLING_ADDRESS_FIELDS.contains k && !hasOwnProperty cardData k then
        getProp billingAddress k
      else none :=
    getProp_filter_key billingAddress
      (fun s => ALLOWED_BILLING_ADDRESS_FIELDS.contains s && !hasOwnProperty cardData s) k
  unfold mergeCardData
  by_cases hname : truthyStr cardholderName = true
  · simp only [hname, if_true]
    rw [getProp_append, getProp_cons]
    by_cases hk : k = "cardholderName"
    · rw [if_pos hk.symm]
      simp [hk, hname]
    · rw [if_neg (fun h => hk h.symm), hfil]
      simp [hk, hname]
  · have hname2 : truthyStr cardholderName = false := Bool.eq_false_iff.mpr hname
    rw [hname2]
    simp only [Bool.false_eq_true, false_and, if_false]
    rw [getProp_append, hfil]

/-- C9: the merged tokenization data takes a caller-supplied billing-address
field only when its key is allow-listed and not already present in the card
data (card-data values take precedence), and a truthy cardholder name is
added under its own key. -/
theorem mergeCardData_allow_list (cardData billingAddress : Obj)
    (cardholderName : Option String) (k : String) :
    (k ≠ "cardholderName" →
      getProp (mergeCardData cardData billingAddress cardholderName) k =
        if (getProp cardData k).isSome then getProp cardData k
        else if k ∈ ALLOWED_BILLING_ADDRESS_FIELDS then getProp billingAddress k
        else none) ∧
    (truthyStr cardholderName = true →
      getProp (mergeCardData cardData billingAddress cardholderName) "cardholderName" =
        some (cardholderName.getD "")) := by
  constructor
  · intro hk
    rw [getProp_mergeCardData]
    rw [if_neg (fun h => hk h.2)]
    by_cases hcd : (getProp cardData k).isSome
    · have hown : hasOwnProperty cardData k = true := hcd
      simp [hown, hcd]
    · have hown : hasOwnProperty cardData k = false := by
        unfold hasOwnProperty
        exact Bool.eq_false_iff.mpr hcd
      have hnone : getProp cardData k = none := Option.not_isSome_iff_eq_none.mp hcd
      by_cases hall : k ∈ ALLOWED_BILLING_ADDRESS_FIELDS
      · have hcont : ALLOWED_BILLING_ADDRESS_FIELDS.contains k = true :=
          List.elem_iff.mpr hall
        simp [hown, hcont, hnone, hcd, hall, Option.or_none]
      · have hcont : ALLOWED_BILLING_ADDRESS_FIELDS.contains k = false := by
          rw [Bool.eq_false_iff]
          intro hc
          exact hall (List.elem_iff.mp hc)
        simp [hcont, hnone, hcd, hall]
  · intro hname
    rw [getProp_mergeCardData]
    rw [if_pos ⟨hname, rfl⟩]

theorem mergeCardData_allow_list_witness :
    ("postalCode" : String) ≠ "cardholderName" ∧
      truthyStr (some "First Last") = true ∧
      getProp (mergeCardData [("number", "4111111111111111")]
          [("postalCode", "60607"), ("color", "red")] (some "First Last")) "postalCode" =
        some "60607" ∧
      getProp (mergeCardData [("number", "4111111111111111")]
          [("postalCode", "60607"), ("color", "red")] (some "First Last")) "cardholderName" =
        some "First Last" := by
  have h := mergeCardData_allow_list [("number", "4111111111111111")]
    [("postalCode", "60607"), ("color", "red")] (some "First Last") "postalCode"
  refine ⟨by decide, by decide, ?_, ?_⟩
  · rw [h.1 (by decide)]
    decide
  · rw [h.2 (by decide)]
    rfl

end HostedFields

namespace HostedFields

/-- C8: the merged acceptance set marks every gateway-declared brand
accepted, and every merchant-configured brand is overridden by the
merchant's per-brand flag (assuming the merchant's keys normalize to
distinct brands, as a JavaScript object's keys do). -/
theorem getSupportedCardBrands_merge (normalizeCardType : String → String)
    (gwList : List String) (merchant : List (String × Bool)) :
    (∀ b, b ∈ gwList.map normalizeCardType →
        (∀ p ∈ merchant, normalizeCardType p.1 ≠ b) →
        getProp (getSupportedCardBrands normalizeCardType (some gwList) (some merchant)) b =
          some true) ∧
    (∀ k v, (merchant.map (fun p => normalizeCardType p.1)).Nodup → (k, v) ∈ merchant →
        getProp (getSupportedCardBrands normalizeCardType (some gwList) (some merchant))
            (normalizeCardType k) = some v) := by
  have hrw : getSupportedCardBrands normalizeCardType (some gwList) (some merchant) =
      (merchant.map (fun p => (normalizeCardType p.1, p.2))).reverse ++
        ((gwList.map normalizeCardType).map (fun c => (c, true))).reverse := by
    unfold getSupportedCardBrands
    show (merchant.foldl (fun brands p => (normalizeCardType p.1, p.2) :: brands)
        ((gwList.map normalizeCardType).foldl (fun brands c => (c, true) :: brands) [])) = _
    rw [foldl_prepend_eq_reverse_map, foldl_prepend_eq_reverse_map, List.append_nil]
  constructor
  · intro b hb hnone
    rw [hrw, getProp_append]
    rw [getProp_eq_none_of_keys _ b (by
      intro p hp
      rw [List.mem_reverse, List.mem_map] at hp
      obtain ⟨q, hq, hqp⟩ := hp
      cases hqp
      exact hnone q hq)]
    rw [Option.none_or]
    apply getProp_unique
    · rw [List.mem_reverse, List.mem_map]
      exact ⟨b, hb, rfl⟩
    · intro p hp hpb
      rw [List.mem_reverse, List.mem_map] at hp
      obtain ⟨c, hc, hcp⟩ := hp
      cases hcp
      cases hpb
      rfl
  · intro k v hnd hkv
    rw [hrw, getProp_append]
    have hleft : getProp ((merchant.map (fun p => (normalizeCardType p.1, p.2))).reverse)
        (normalizeCardType k) = some v := by
      apply getProp_unique
      · rw [List.mem_reverse, List.mem_map]
        exact ⟨(k, v), hkv, rfl⟩
      · intro p hp hpk
        rw [List.mem_reverse, List.mem_map] at hp
        obtain ⟨q, hq, hqp⟩ := hp
        cases hqp
        have hq2 : q = (k, v) := List.inj_on_of_nodup_map hnd hq hkv hpk
        rw [hq2]
    rw [hleft, Option.or_some]

theorem getSupportedCardBrands_merge_witness :
    ("mastercard" ∈ (["visa", "mastercard"] : List String).map id) ∧
      ((([("visa", true)] : List (String × Bool)).map (fun p => id p.1)).Nodup) ∧
      getProp (getSupportedCardBrands id (some ["visa", "mastercard"]) (some [("visa", true)]))
          "mastercard" = some true ∧
      getProp (getSupportedCardBrands id (some ["visa", "mastercard"]) (some [("visa", true)]))
          (id "visa") = some true := by
  have h := getSupportedCardBrands_merge id ["visa", "mastercard"] [("visa", true)]
  refine ⟨by decide, by decide, ?_, ?_⟩
  · exact h.1 "mastercard" (by decide) (by decide)
  · exact h.2 "visa" true (by decide) (by decide)

end HostedFields

namespace HostedFields

/-- C7: for a payload whose year has exactly two characters (and a truthy
month, or the handler returns early), the reconciled year is the current
full year's first two characters prepended to the payload year, and the
expiration-year surface pushes exactly that value into its model and
display. -/
theorem autofillHandler_two_digit_year (thisYear : String) (shouldMask : Bool)
    (p : AutofillPayload) (hmonth : ¬p.month = "") (hyear : p.year.length = 2) :
    reconcileYear thisYear p.year = thisYear.take 2 ++ p.year ∧
      autofillHandler thisYear "expirationYear" shouldMask (some p) =
        AutofillEffect.updateModel (thisYear.take 2 ++ p.year) ::
          (if shouldMask then [AutofillEffect.maskValue (thisYear.take 2 ++ p.year)]
           else [AutofillEffect.setElementValue (thisYear.take 2 ++ p.year)]) ++
          [AutofillEffect.resetPlaceholder] := by
  have hrec : reconcileYear thisYear p.year = thisYear.take 2 ++ p.year := by
    unfold reconcileYear
    rw [if_pos hyear]
  have hyne : ¬p.year = "" := by
    intro h0
    rw [h0] at hyear
    exact absurd hyear (by decide)
  have hvne : ¬(thisYear.take 2 ++ p.year) = "" := by
    intro h0
    have hlen := congrArg String.length h0
    rw [String.length_append, hyear] at hlen
    have hz : ("" : String).length = 0 := rfl
    rw [hz] at hlen
    omega
  refine ⟨hrec, ?_⟩
  have hval : autofillValue thisYear "expirationYear" p =
      some (thisYear.take 2 ++ p.year) := by
    simp only [autofillValue]
    simp [hrec]
  simp only [autofillHandler]
  rw [if_neg (not_or.mpr ⟨hmonth, hyne⟩), hval]
  dsimp only
  rw [if_neg hvne]

theorem autofillHandler_two_digit_year_witness :
    ¬("01" : String) = "" ∧ ("29" : String).length = 2 ∧
      reconcileYear "2025" "29" = "2029" ∧
      autofillHandler "2025" "expirationYear" false (some ⟨"01", "29", none⟩) =
        [AutofillEffect.updateModel "2029", AutofillEffect.setElementValue "2029",
          AutofillEffect.resetPlaceholder] := by
  have h := autofillHandler_two_digit_year "2025" false ⟨"01", "29", none⟩
    (by decide) (by decide)
  refine ⟨by decide, by decide, ?_, ?_⟩
  · rw [h.1]
    rfl
  · rw [h.2]
    rfl

/-- C10: the autofill handler leaves the field component entirely unchanged
(no model update, no display write, no masking, no placeholder reset) when
the payload is absent or lacks a month or a year, and likewise when the
surface role is none of the expiration roles and is not a cvv surface
receiving a truthy cvv value. -/
theorem autofillHandler_noop (thisYear name : String) (shouldMask : Bool)
    (payload : Option AutofillPayload)
    (h : payload = none ∨
      ∃ p, payload = some p ∧
        (p.month = "" ∨ p.year = "" ∨
          (name ≠ "expirationDate" ∧ name ≠ "expirationMonth" ∧ name ≠ "expirationYear" ∧
            (name ≠ "cvv" ∨ truthyStr p.cvv = false)))) :
    autofillHandler thisYear name shouldMask payload = [] := by
  rcases h with h | ⟨p, hp, hcase⟩
  · rw [h]
    rfl
  · rw [hp]
    simp only [autofillHandler]
    rcases hcase with hm | hy | ⟨hd, hmn, hyn, hcvv⟩
    · rw [if_pos (Or.inl hm)]
    · rw [if_pos (Or.inr hy)]
    · by_cases hmy : p.month = "" ∨ p.year = ""
      · rw [if_pos hmy]
      · rw [if_neg hmy]
        have hval : autofillValue thisYear name p = none := by
          unfold autofillValue
          rw [if_neg hd, if_neg hmn, if_neg hyn]
          rcases hcvv with hc | hc
          · rw [if_neg (fun hand => hc hand.1)]
          · rw [if_neg (fun hand => Bool.false_ne_true (hc ▸ hand.2))]
        rw [hval]

theorem autofillHandler_noop_witness :
    (some (⟨"12", "2029", none⟩ : AutofillPayload) = none ∨
      ∃ p, some (⟨"12", "2029", none⟩ : AutofillPayload) = some p ∧
        (p.month = "" ∨ p.year = "" ∨
          (("number" : String) ≠ "expirationDate" ∧ ("number" : String) ≠ "expirationMonth" ∧
            ("number" : String) ≠ "expirationYear" ∧
            (("number" : String) ≠ "cvv" ∨ truthyStr p.cvv = false)))) ∧
      autofillHandler "2025" "number" false (some ⟨"12", "2029", none⟩) = [] := by
  refine ⟨?_, ?_⟩
  · exact Or.inr ⟨⟨"12", "2029", none⟩, rfl,
      Or.inr (Or.inr ⟨by decide, by decide, by decide, Or.inl (by decide)⟩)⟩
  · exact autofillHandler_noop "2025" "number" false (some ⟨"12", "2029", none⟩)
      (Or.inr ⟨⟨"12", "2029", none⟩, rfl,
        Or.inr (Or.inr ⟨by decide, by decide, by decide, Or.inl (by decide)⟩)⟩)

end HostedFields
